import Mathlib

/-!
Verification development for the SpaceABoard repository.

The procedural terrain field (src/utils/terrain.ts) and the player
locomotion physics step (the useFrame physics block of the Player
component) are embedded shallowly over the real numbers: JavaScript
numbers are modelled as elements of the real field, Math.floor as the
integer floor, Math.sin / Math.cos / Math.sqrt / Math.pow as the
corresponding real functions, and the mutable per-frame update as an
explicit state-passing step function.

The constant WORLD_LENGTH is defined in constants.ts, a file of this
repository that is not part of src/. Modelled from the spec: the spec
fixes it only as "a fixed world-length constant" (the length of the
bounded play corridor), so it is threaded through every definition as
an explicit parameter named L.
-/

namespace SpaceABoard

/-- Translation of the helper fract from src/utils/terrain.ts line 4:
fract x is x minus the floor of x. -/
noncomputable def fract (x : ℝ) : ℝ := x - ⌊x⌋

/-- Translation of hash from src/utils/terrain.ts lines 5 to 7. -/
noncomputable def hash (x z : ℝ) : ℝ :=
  fract (Real.sin (x * 12.9898 + z * 78.233) * 43758.5453)

/-- Translation of the 2D value noise from src/utils/terrain.ts lines 10
to 23. -/
noncomputable def noise (x z : ℝ) : ℝ :=
  let iX : ℝ := ⌊x⌋
  let iZ : ℝ := ⌊z⌋
  let fX := fract x
  let fZ := fract z
  let uX := fX * fX * (3 - 2 * fX)
  let uZ := fZ * fZ * (3 - 2 * fZ)
  let a := hash iX iZ
  let b := hash (iX + 1) iZ
  let c := hash iX (iZ + 1)
  let d := hash (iX + 1) (iZ + 1)
  (a * (1 - uX) + b * uX) * (1 - uZ) +
  (c * (1 - uX) + d * uX) * uZ

/-- Recursion for the fractal Brownian motion loop of src/utils/terrain.ts
lines 26 to 36: the accumulator carries total, amplitude and frequency. -/
noncomputable def fbmAux (x z persistence lacunarity : ℝ) :
    ℕ → ℝ → ℝ → ℝ → ℝ
  | 0, total, _, _ => total
  | n + 1, total, amplitude, frequency =>
      fbmAux x z persistence lacunarity n
        (total + noise (x * frequency) (z * frequency) * amplitude)
        (amplitude * persistence) (frequency * lacunarity)

/-- Translation of fbm from src/utils/terrain.ts lines 26 to 36. -/
noncomputable def fbm (x z : ℝ) (octaves : ℕ) (persistence lacunarity : ℝ) : ℝ :=
  fbmAux x z persistence lacunarity octaves 0 1 1

/-- PlanetType from src/unnamed/part_001 (the types module). -/
inductive PlanetType where
  | MARS
  | MOON
  | SATURN
  | SATURN_RINGS
  | NEPTUNE
  | URANUS
  | SPACECRAFT
deriving DecidableEq

/-- TerrainProfile from src/unnamed/part_001. -/
inductive TerrainProfile where
  | shield
  | ridge
  | cloud
  | pipe
deriving DecidableEq

/-- PlanetConfig from src/unnamed/part_001, restricted to the fields the
terrain field and the physics step read (the remaining fields are colors,
flags and description strings that the core never reads). -/
structure PlanetConfig where
  name : PlanetType
  gravity : ℝ
  mountainHeight : ℝ
  terrainRoughness : ℝ
  terrainProfile : TerrainProfile

/-- The global downhill slope term of getTerrainHeight, lines 40 to 41 of
src/utils/terrain.ts: zProgress runs from 0 at the track start to 1 at
the track end and the term interpolates mountainHeight down to zero. -/
noncomputable def slopeHeightOf (L z mountainHeight : ℝ) : ℝ :=
  (1 - (z + L / 2) / L) * mountainHeight

/-- The Mars specific terrain block of getTerrainHeight, lines 44 to 90 of
src/utils/terrain.ts (everything the Mars branch adds on top of the
global slope and the fixed baseline). -/
noncomputable def marsTerrain (x z : ℝ) : ℝ :=
  let absX := |x|
  let channelWidth : ℝ := 140
  let terrain0 := (absX / channelWidth) ^ (2 : ℕ) * 5
  let terrain1 :=
    if absX > channelWidth then
      let dist := absX - channelWidth
      let rampWidth : ℝ := 200
      let rampProgress := min (dist / rampWidth) 1
      let smoothRamp := rampProgress * rampProgress * (3 - 2 * rampProgress)
      let leveeHeight : ℝ := 80
      let t1 := terrain0 + smoothRamp * leveeHeight
      let lobes := noise (x * 0.003) (z * 0.003)
      let t2 := t1 + lobes * 50 * rampProgress
      if dist > rampWidth then
        t2 - (dist - rampWidth) ^ (1.5 : ℝ) * 0.005
      else t2
    else terrain0
  let surfaceNoise := fbm (x * 0.02) (z * 0.02) 3 0.5 2.0
  terrain1 + (surfaceNoise - 0.5) * 10

/-- The per profile term of getTerrainHeight for non Mars planets, lines
95 to 116 of src/utils/terrain.ts. -/
noncomputable def profileHeightOf (x : ℝ) (planet : PlanetConfig) : ℝ :=
  let absX := |x|
  match planet.terrainProfile with
  | TerrainProfile.ridge => max (-(absX / 10) ^ (1.5 : ℝ) * 2) (-3000)
  | TerrainProfile.cloud => Real.cos (x * 0.005) * 50 - absX ^ (2 : ℕ) / 6000
  | TerrainProfile.pipe => max (-(absX / 40) ^ (2 : ℕ) * 5) (-2000)
  | TerrainProfile.shield => -absX ^ (2 : ℕ) / 4500

/-- The noise and texture term of getTerrainHeight for non Mars planets,
lines 118 to 141 of src/utils/terrain.ts: large scale fbm scaled by a
roughness dependent amplitude (fixed override for the pipe profile),
attenuated inside the central corridor and amplified by cliff noise
outside it. -/
noncomputable def finalNoiseOf (x z : ℝ) (planet : PlanetConfig) : ℝ :=
  let absX := |x|
  let largeScale : ℝ := 0.0005
  let terrainNoise := fbm (x * largeScale) (z * largeScale) 4 0.5 2.0
  let noiseAmplitude :=
    if planet.terrainProfile = TerrainProfile.pipe then (50 : ℝ)
    else 500 * planet.terrainRoughness
  let finalNoise0 := (terrainNoise - 0.5) * noiseAmplitude
  let finalNoise1 := if absX < 150 then finalNoise0 * 0.15 else finalNoise0
  if absX ≥ 150 then
    let cliffNoise := noise (x * 0.001) (z * 0.001)
    let ramp := min ((absX - 150) / 1000) 1
    let cliffIntensity := ramp ^ (2 : ℕ)
    finalNoise1 + cliffNoise * 600 * cliffIntensity * planet.terrainRoughness +
      noise (x * 0.01) (z * 0.01) * 100 * cliffIntensity
  else finalNoise1

/-- The micro detail term of getTerrainHeight, lines 143 to 148 of
src/utils/terrain.ts: high frequency single octave noise, squared for the
Moon. -/
noncomputable def microNoiseOf (x z : ℝ) (planet : PlanetConfig) : ℝ :=
  let microScale : ℝ := 0.8
  let m := noise (x * microScale) (z * microScale)
  if planet.name = PlanetType.MOON then m ^ (2 : ℕ) else m

/-- The micro detail amplitude, line 149 of src/utils/terrain.ts. -/
def microAmplitude : ℝ := 1

/-- Translation of getTerrainHeight from src/utils/terrain.ts lines 38 to
152, assembled from the block definitions above: the Mars branch returns
slope plus the volcano terrain minus 200, every other planet returns
slope plus profile plus noise plus micro detail minus 200. -/
noncomputable def getTerrainHeight (L x z : ℝ) (planet : PlanetConfig) : ℝ :=
  let slopeHeight := slopeHeightOf L z planet.mountainHeight
  if planet.name = PlanetType.MARS then
    slopeHeight + marsTerrain x z - 200
  else
    slopeHeight + profileHeightOf x planet + finalNoiseOf x z planet +
      microNoiseOf x z planet * microAmplitude - 200

/-- A 3 component vector of reals, standing for the plain x y z records
the source passes around. -/
structure Vec3 where
  x : ℝ
  y : ℝ
  z : ℝ

/-- The un-normalized normal vector built inside getTerrainNormal, lines
155 to 165 of src/utils/terrain.ts: central differences in x and z with a
fixed sample offset of 2, and y equal to twice the offset. -/
noncomputable def normVecOf (L x z : ℝ) (planet : PlanetConfig) : Vec3 :=
  let offset : ℝ := 2
  { x := getTerrainHeight L (x - offset) z planet -
         getTerrainHeight L (x + offset) z planet
    y := 2 * offset
    z := getTerrainHeight L x (z - offset) planet -
         getTerrainHeight L x (z + offset) planet }

/-- The normalizing length computed in getTerrainNormal, line 167 of
src/utils/terrain.ts. -/
noncomputable def lenOf (L x z : ℝ) (planet : PlanetConfig) : ℝ :=
  let n := normVecOf L x z planet
  Real.sqrt (n.x * n.x + n.y * n.y + n.z * n.z)

/-- Translation of getTerrainNormal from src/utils/terrain.ts lines 154
to 169. -/
noncomputable def getTerrainNormal (L x z : ℝ) (planet : PlanetConfig) : Vec3 :=
  let n := normVecOf L x z planet
  let len := lenOf L x z planet
  { x := n.x / len, y := n.y / len, z := n.z / len }

/-! ## The locomotion physics step

Translation of the physics part of the useFrame body of the Player
component (src/unnamed/part_003, lines 114 to 211). The mutable refs
position, velocity, speed and inputVector are gathered in a state record;
the keyboard flags are an input record; delta is the elapsed frame time.
Each intermediate value of the source body is a named definition so that
theorems can speak about the sub-steps. -/

/-- The keyboard flag vector consumed by the physics step
(src/unnamed/part_003 line 53). -/
structure Keys where
  w : Bool
  a : Bool
  s : Bool
  d : Bool
  space : Bool

/-- The mutable physics state of the Player component: position,
velocity, scalar forward speed and the smoothed lateral input
(src/unnamed/part_003 lines 45 to 49; inputVector.z is never read or
written by the physics, so only its x component is kept). -/
structure PState where
  pos : Vec3
  vel : Vec3
  speed : ℝ
  inputX : ℝ

/-- HOVER_TARGET, src/unnamed/part_003 line 34. -/
def HOVER_TARGET : ℝ := 1

/-- HOVER_STIFFNESS, src/unnamed/part_003 line 35. -/
def HOVER_STIFFNESS : ℝ := 1800

/-- HOVER_DAMPING, src/unnamed/part_003 line 36. -/
def HOVER_DAMPING : ℝ := 120

/-- MASS, src/unnamed/part_003 line 37. -/
def MASS : ℝ := 120

/-- accel, src/unnamed/part_003 line 175. -/
def accel : ℝ := 60

/-- brake, src/unnamed/part_003 line 176. -/
def brake : ℝ := 200

/-- maxSpeed, src/unnamed/part_003 line 177. -/
def maxSpeed : ℝ := 190

/-- THREE.MathUtils.lerp, used for input smoothing on line 185. -/
def lerp (a b t : ℝ) : ℝ := a + (b - a) * t

/-- The clamped per frame time step, line 117: dt = min(delta, 0.05). -/
noncomputable def dtOf (delta : ℝ) : ℝ := min delta 0.05

/-- The track start position, line 39: startZ = -WORLD_LENGTH / 2 + 200. -/
noncomputable def startZOf (L : ℝ) : ℝ := -L / 2 + 200

/-- The spawn elevation, lines 40 to 42: terrain height at (0, startZ)
plus 5. -/
noncomputable def initialSpawnHeightOf (L : ℝ) (planet : PlanetConfig) : ℝ :=
  getTerrainHeight L 0 (startZOf L) planet + 5

/-- The spawn state, from the initial ref values (lines 45 to 49) and the
menu reset logic (lines 84 to 91): position (0, spawn height, startZ),
velocity zero, speed zero, lateral input zero. -/
noncomputable def spawnState (L : ℝ) (planet : PlanetConfig) : PState :=
  { pos := { x := 0, y := initialSpawnHeightOf L planet, z := startZOf L }
    vel := { x := 0, y := 0, z := 0 }
    speed := 0
    inputX := 0 }

/-- The terrain sample at the current position, line 145. -/
noncomputable def terrainHeightAt (L : ℝ) (planet : PlanetConfig) (st : PState) : ℝ :=
  getTerrainHeight L st.pos.x st.pos.z planet

/-- The ground normal sample at the current position, lines 146 to 147. -/
noncomputable def groundNormalAt (L : ℝ) (planet : PlanetConfig) (st : PState) : Vec3 :=
  getTerrainNormal L st.pos.x st.pos.z planet

/-- currentHeight, line 148: vertical clearance above the local terrain
sample. -/
noncomputable def currentHeightOf (L : ℝ) (planet : PlanetConfig) (st : PState) : ℝ :=
  st.pos.y - terrainHeightAt L planet st

/-- isGrounded, line 149: clearance below HOVER_TARGET + 1.0. -/
noncomputable def isGroundedOf (L : ℝ) (planet : PlanetConfig) (st : PState) : Prop :=
  currentHeightOf L planet st < HOVER_TARGET + 1

noncomputable instance (L : ℝ) (planet : PlanetConfig) (st : PState) :
    Decidable (isGroundedOf L planet st) := by
  unfold isGroundedOf
  exact inferInstance

/-- forceY, lines 157 to 166: gravity, plus the clamped hover
spring-damper inside the spring band, minus the settle force when
grounded and not jumping. -/
noncomputable def forceYOf (L : ℝ) (planet : PlanetConfig) (keys : Keys) (st : PState) : ℝ :=
  let currentHeight := currentHeightOf L planet st
  let f0 := -planet.gravity * 600
  if currentHeight < HOVER_TARGET + 3 then
    let displacement := HOVER_TARGET - currentHeight
    let springForce := displacement * HOVER_STIFFNESS
    let dampingForce := -st.vel.y * HOVER_DAMPING
    let f1 := f0 + max 0 (springForce + dampingForce)
    if keys.space = false ∧ isGroundedOf L planet st then
      f1 - (800 + |st.speed| * 10)
    else f1
  else f0

/-- The vertical velocity after the jump assignment (lines 169 to 172)
and the force integration (line 174): the jump sets it to 50 when the
jump key is held, the craft is grounded and the clearance is inside the
launch band, and then forceY * dt / (MASS / 10) is added. -/
noncomputable def velY2Of (L : ℝ) (planet : PlanetConfig) (keys : Keys) (delta : ℝ)
    (st : PState) : ℝ :=
  let v1 :=
    if keys.space = true ∧ isGroundedOf L planet st ∧
        currentHeightOf L planet st < HOVER_TARGET + 0.5 then (50 : ℝ)
    else st.vel.y
  v1 + forceYOf L planet keys st * dtOf delta / (MASS / 10)

/-- The forward speed after throttle, brake, drag decay and the clamp,
lines 179 to 182. -/
noncomputable def speed3Of (keys : Keys) (delta : ℝ) (st : PState) : ℝ :=
  let dt := dtOf delta
  let s1 := st.speed + (if keys.w = true then accel * dt else 0)
  let s2 := s1 - (if keys.s = true then brake * dt else 0)
  let s3 := s2 * 0.99
  min (max s3 (-20)) maxSpeed

/-- The smoothed lateral input after this step, lines 184 to 185. -/
noncomputable def inputX1Of (keys : Keys) (delta : ℝ) (st : PState) : ℝ :=
  let targetTurn : ℝ :=
    (if keys.a = true then 1 else 0) + (if keys.d = true then -1 else 0)
  lerp st.inputX targetTurn (dtOf delta * 6)

/-- The lateral velocity after steering, decay and the slope push, lines
187 to 190. -/
noncomputable def velX3Of (L : ℝ) (planet : PlanetConfig) (keys : Keys) (delta : ℝ)
    (st : PState) : ℝ :=
  let dt := dtOf delta
  let turnRate := 50 + speed3Of keys delta st * 0.1
  let v1 := st.vel.x + inputX1Of keys delta st * turnRate * dt
  let v2 := v1 * 0.88
  v2 + (groundNormalAt L planet st).x * planet.gravity * 200 * dt

/-- The forward speed after the downhill slope boost, line 192: when the
z component of the local normal is positive, it is added (scaled by
gravity, a factor 100 and dt) on top of the already clamped speed. -/
noncomputable def speed4Of (L : ℝ) (planet : PlanetConfig) (keys : Keys) (delta : ℝ)
    (st : PState) : ℝ :=
  if (groundNormalAt L planet st).z > 0 then
    speed3Of keys delta st +
      (groundNormalAt L planet st).z * planet.gravity * 100 * dtOf delta
  else speed3Of keys delta st

/-- The candidate next x, line 195. -/
noncomputable def nextXOf (L : ℝ) (planet : PlanetConfig) (keys : Keys) (delta : ℝ)
    (st : PState) : ℝ :=
  st.pos.x + velX3Of L planet keys delta st * dtOf delta

/-- The candidate next z, line 196: the track advance always carries the
constant forward bias of 10. -/
noncomputable def nextZOf (L : ℝ) (planet : PlanetConfig) (keys : Keys) (delta : ℝ)
    (st : PState) : ℝ :=
  st.pos.z + (speed4Of L planet keys delta st + 10) * dtOf delta

/-- The candidate next y before the ground clamp, line 197. -/
noncomputable def nextY0Of (L : ℝ) (planet : PlanetConfig) (keys : Keys) (delta : ℝ)
    (st : PState) : ℝ :=
  st.pos.y + velY2Of L planet keys delta st * dtOf delta

/-- The terrain sample at the candidate position, line 199. -/
noncomputable def nextTerrainHeightOf (L : ℝ) (planet : PlanetConfig) (keys : Keys)
    (delta : ℝ) (st : PState) : ℝ :=
  getTerrainHeight L (nextXOf L planet keys delta st)
    (nextZOf L planet keys delta st) planet

/-- The ground penetration condition of line 200: the candidate y is below
the candidate terrain sample plus 0.5. -/
noncomputable def penetCondOf (L : ℝ) (planet : PlanetConfig) (keys : Keys) (delta : ℝ)
    (st : PState) : Prop :=
  nextY0Of L planet keys delta st < nextTerrainHeightOf L planet keys delta st + 0.5

noncomputable instance (L : ℝ) (planet : PlanetConfig) (keys : Keys) (delta : ℝ)
    (st : PState) : Decidable (penetCondOf L planet keys delta st) := by
  unfold penetCondOf
  exact inferInstance

/-- The wall collision condition of line 205: the candidate terrain
sample climbs more than 5 above the y at which the step started. -/
noncomputable def wallCondOf (L : ℝ) (planet : PlanetConfig) (keys : Keys) (delta : ℝ)
    (st : PState) : Prop :=
  nextTerrainHeightOf L planet keys delta st - st.pos.y > 5

noncomputable instance (L : ℝ) (planet : PlanetConfig) (keys : Keys) (delta : ℝ)
    (st : PState) : Decidable (wallCondOf L planet keys delta st) := by
  unfold wallCondOf
  exact inferInstance

/-- One physics step of the Player useFrame body, lines 145 to 211: the
candidate position built by Euler integration, the ground penetration
clamp (clamp y to the surface plus 0.5 and zero the vertical velocity),
and the wall response (damp forward speed by 0.3, reverse and halve the
lateral velocity, keep the x coordinate of the step start), committed as
the new state. -/
noncomputable def stepPhysics (L : ℝ) (planet : PlanetConfig) (keys : Keys) (delta : ℝ)
    (st : PState) : PState :=
  let penet := penetCondOf L planet keys delta st
  let wall := wallCondOf L planet keys delta st
  { pos :=
      { x := if wall then st.pos.x else nextXOf L planet keys delta st
        y := if penet then nextTerrainHeightOf L planet keys delta st + 0.5
             else nextY0Of L planet keys delta st
        z := nextZOf L planet keys delta st }
    vel :=
      { x := if wall then velX3Of L planet keys delta st * (-0.5)
             else velX3Of L planet keys delta st
        y := if penet then 0 else velY2Of L planet keys delta st
        z := st.vel.z }
    speed := if wall then speed4Of L planet keys delta st * 0.3
             else speed4Of L planet keys delta st
    inputX := inputX1Of keys delta st }

/-- One simulation step in the PLAYING state: the finish check of lines
137 to 142 returns before any physics once the z position passes
WORLD_LENGTH / 2 - 300, otherwise the physics step runs. -/
noncomputable def step (L : ℝ) (planet : PlanetConfig) (keys : Keys) (delta : ℝ)
    (st : PState) : PState :=
  if st.pos.z > L / 2 - 300 then st
  else stepPhysics L planet keys delta st

/-- A run of simulation steps: fold the per frame step over a list of
(keyboard state, frame delta) inputs. -/
noncomputable def runSteps (L : ℝ) (planet : PlanetConfig)
    (inputs : List (Keys × ℝ)) (st : PState) : PState :=
  inputs.foldl (fun acc i => step L planet i.1 i.2 acc) st

/-! ## Basic bounds on the noise kernel -/

lemma fract_nonneg (x : ℝ) : 0 ≤ fract x := Int.fract_nonneg x

lemma fract_lt_one (x : ℝ) : fract x < 1 := Int.fract_lt_one x

lemma hash_nonneg (x z : ℝ) : 0 ≤ hash x z := fract_nonneg _

lemma hash_lt_one (x z : ℝ) : hash x z < 1 := fract_lt_one _

lemma smooth_nonneg {f : ℝ} (h0 : 0 ≤ f) (h1 : f < 1) :
    0 ≤ f * f * (3 - 2 * f) :=
  mul_nonneg (mul_nonneg h0 h0) (by linarith)

lemma smooth_le_one {f : ℝ} (h0 : 0 ≤ f) (h1 : f < 1) :
    f * f * (3 - 2 * f) ≤ 1 := by
  nlinarith [mul_nonneg (sq_nonneg (1 - f)) (by linarith : (0:ℝ) ≤ 1 + 2 * f)]

lemma comb_nonneg {a b u : ℝ} (ha : 0 ≤ a) (hb : 0 ≤ b)
    (h0 : 0 ≤ u) (h1 : u ≤ 1) : 0 ≤ a * (1 - u) + b * u := by
  have h2 := mul_nonneg ha (by linarith : (0:ℝ) ≤ 1 - u)
  have h3 := mul_nonneg hb h0
  linarith

lemma comb_lt_one {a b u : ℝ} (ha : a < 1) (hb : b < 1)
    (h0 : 0 ≤ u) (h1 : u ≤ 1) : a * (1 - u) + b * u < 1 := by
  rcases eq_or_lt_of_le h0 with hu | hu
  · rw [← hu]
    simpa using ha
  · nlinarith [mul_pos (by linarith : (0:ℝ) < 1 - b) hu,
      mul_nonneg (by linarith : (0:ℝ) ≤ 1 - a) (by linarith : (0:ℝ) ≤ 1 - u)]

lemma noise_nonneg (x z : ℝ) : 0 ≤ noise x z := by
  have hux0 := smooth_nonneg (fract_nonneg x) (fract_lt_one x)
  have hux1 := smooth_le_one (fract_nonneg x) (fract_lt_one x)
  have huz0 := smooth_nonneg (fract_nonneg z) (fract_lt_one z)
  have huz1 := smooth_le_one (fract_nonneg z) (fract_lt_one z)
  simp only [noise]
  exact comb_nonneg
    (comb_nonneg (hash_nonneg _ _) (hash_nonneg _ _) hux0 hux1)
    (comb_nonneg (hash_nonneg _ _) (hash_nonneg _ _) hux0 hux1) huz0 huz1

lemma noise_lt_one (x z : ℝ) : noise x z < 1 := by
  have hux0 := smooth_nonneg (fract_nonneg x) (fract_lt_one x)
  have hux1 := smooth_le_one (fract_nonneg x) (fract_lt_one x)
  have huz0 := smooth_nonneg (fract_nonneg z) (fract_lt_one z)
  have huz1 := smooth_le_one (fract_nonneg z) (fract_lt_one z)
  simp only [noise]
  exact comb_lt_one
    (comb_lt_one (hash_lt_one _ _) (hash_lt_one _ _) hux0 hux1)
    (comb_lt_one (hash_lt_one _ _) (hash_lt_one _ _) hux0 hux1) huz0 huz1

lemma noise_le_one (x z : ℝ) : noise x z ≤ 1 := le_of_lt (noise_lt_one x z)

/-! ## Bounds on the normal estimator -/

lemma normVec_y (L x z : ℝ) (p : PlanetConfig) : (normVecOf L x z p).y = 4 := by
  simp [normVecOf]
  norm_num

lemma lenOf_eq (L x z : ℝ) (p : PlanetConfig) :
    lenOf L x z p =
      Real.sqrt ((normVecOf L x z p).x * (normVecOf L x z p).x + 16 +
        (normVecOf L x z p).z * (normVecOf L x z p).z) := by
  simp only [lenOf]
  rw [normVec_y]
  norm_num

lemma lenOf_pos (L x z : ℝ) (p : PlanetConfig) : 0 < lenOf L x z p := by
  rw [lenOf_eq]
  apply Real.sqrt_pos.mpr
  nlinarith [mul_self_nonneg (normVecOf L x z p).x,
    mul_self_nonneg (normVecOf L x z p).z]

lemma abs_z_le_lenOf (L x z : ℝ) (p : PlanetConfig) :
    |(normVecOf L x z p).z| ≤ lenOf L x z p := by
  rw [lenOf_eq]
  have h1 : (normVecOf L x z p).z * (normVecOf L x z p).z ≤
      (normVecOf L x z p).x * (normVecOf L x z p).x + 16 +
        (normVecOf L x z p).z * (normVecOf L x z p).z := by
    nlinarith [mul_self_nonneg (normVecOf L x z p).x]
  calc |(normVecOf L x z p).z|
      = Real.sqrt ((normVecOf L x z p).z * (normVecOf L x z p).z) :=
        (Real.sqrt_mul_self_eq_abs _).symm
    _ ≤ _ := Real.sqrt_le_sqrt h1

lemma four_le_lenOf (L x z : ℝ) (p : PlanetConfig) : 4 ≤ lenOf L x z p := by
  rw [lenOf_eq]
  have h16 : Real.sqrt 16 = 4 := by
    rw [show (16:ℝ) = 4 ^ 2 by norm_num]
    exact Real.sqrt_sq (by norm_num)
  have h1 : (16:ℝ) ≤ (normVecOf L x z p).x * (normVecOf L x z p).x + 16 +
      (normVecOf L x z p).z * (normVecOf L x z p).z := by
    nlinarith [mul_self_nonneg (normVecOf L x z p).x,
      mul_self_nonneg (normVecOf L x z p).z]
  calc (4:ℝ) = Real.sqrt 16 := h16.symm
    _ ≤ _ := Real.sqrt_le_sqrt h1

lemma lenOf_le (L x z : ℝ) (p : PlanetConfig)
    (hx : |(normVecOf L x z p).x| ≤ 1) :
    lenOf L x z p ≤ |(normVecOf L x z p).z| + 5 := by
  rw [lenOf_eq]
  have hxx : (normVecOf L x z p).x * (normVecOf L x z p).x ≤ 1 := by
    have := abs_mul_abs_self (normVecOf L x z p).x
    nlinarith [abs_nonneg (normVecOf L x z p).x]
  have hzz : (normVecOf L x z p).z * (normVecOf L x z p).z =
      |(normVecOf L x z p).z| * |(normVecOf L x z p).z| :=
    (abs_mul_abs_self _).symm
  have h1 : (normVecOf L x z p).x * (normVecOf L x z p).x + 16 +
      (normVecOf L x z p).z * (normVecOf L x z p).z ≤
      (|(normVecOf L x z p).z| + 5) ^ 2 := by
    rw [hzz]
    nlinarith [abs_nonneg (normVecOf L x z p).z]
  calc Real.sqrt _ ≤ Real.sqrt ((|(normVecOf L x z p).z| + 5) ^ 2) :=
        Real.sqrt_le_sqrt h1
    _ = |(normVecOf L x z p).z| + 5 := Real.sqrt_sq (by positivity)

lemma normal_z_abs_le_one (L x z : ℝ) (p : PlanetConfig) :
    |(getTerrainNormal L x z p).z| ≤ 1 := by
  have hlen := lenOf_pos L x z p
  simp only [getTerrainNormal]
  rw [abs_div, abs_of_pos hlen]
  exact div_le_one_of_le (abs_z_le_lenOf L x z p) (le_of_lt hlen)

lemma normal_x_abs_le_quarter (L x z : ℝ) (p : PlanetConfig)
    (hx : |(normVecOf L x z p).x| ≤ 1) :
    |(getTerrainNormal L x z p).x| ≤ 1 / 4 := by
  have hlen := lenOf_pos L x z p
  simp only [getTerrainNormal]
  rw [abs_div, abs_of_pos hlen]
  exact div_le_div (by norm_num) hx (by norm_num) (four_le_lenOf L x z p)

lemma normal_z_pos (L x z : ℝ) (p : PlanetConfig)
    (hz : 0 < (normVecOf L x z p).z) : 0 < (getTerrainNormal L x z p).z := by
  simp only [getTerrainNormal]
  exact div_pos hz (lenOf_pos L x z p)

lemma normal_z_neg (L x z : ℝ) (p : PlanetConfig)
    (hz : (normVecOf L x z p).z < 0) : (getTerrainNormal L x z p).z < 0 := by
  simp only [getTerrainNormal]
  exact div_neg_of_neg_of_pos hz (lenOf_pos L x z p)

lemma normal_z_ge_half (L x z : ℝ) (p : PlanetConfig)
    (hx : |(normVecOf L x z p).x| ≤ 1) (hz : 5 ≤ (normVecOf L x z p).z) :
    1 / 2 ≤ (getTerrainNormal L x z p).z := by
  have hlen := lenOf_pos L x z p
  have hle := lenOf_le L x z p hx
  rw [abs_of_nonneg (by linarith)] at hle
  simp only [getTerrainNormal]
  rw [le_div_iff hlen]
  linarith

/-! ## Claim C1: purity of the terrain queries -/

/-- A terrain height query made from a call site with an ambient history
of prior calls: src/utils/terrain.ts declares no mutable module state
(its only declarations are const arrow functions over their arguments),
so the query returns a value computed from the arguments alone and the
ambient history merely records the call. -/
noncomputable def getTerrainHeightCall (prior : List (ℝ × ℝ)) (L x z : ℝ)
    (planet : PlanetConfig) : ℝ × List (ℝ × ℝ) :=
  (getTerrainHeight L x z planet, (x, z) :: prior)

/-- A terrain normal query made from a call site with an ambient history
of prior calls; like the height query it reads no mutable state. -/
noncomputable def getTerrainNormalCall (prior : List (ℝ × ℝ)) (L x z : ℝ)
    (planet : PlanetConfig) : Vec3 × List (ℝ × ℝ) :=
  (getTerrainNormal L x z planet, (x, z) :: prior)

/-- Claim C1: for every x, z and planet configuration, any two calls to
getTerrainHeight and any two calls to getTerrainNormal return the same
value regardless of the call site and of any prior calls: both functions
are pure, read no mutable state and use no per call randomness, so the
value component of a query is independent of the ambient call history. -/
theorem terrain_queries_pure (L x z : ℝ) (planet : PlanetConfig)
    (prior1 prior2 : List (ℝ × ℝ)) :
    (getTerrainHeightCall prior1 L x z planet).1 =
      (getTerrainHeightCall prior2 L x z planet).1 ∧
    (getTerrainNormalCall prior1 L x z planet).1 =
      (getTerrainNormalCall prior2 L x z planet).1 :=
  ⟨rfl, rfl⟩

/-! ## Claim C6: the grounded flag -/

/-- Claim C6: on every simulation step the grounded flag holds exactly
when the clearance, current y minus the terrain height sampled at the
current x and z, is below the fixed grounded threshold HOVER_TARGET plus
one, that is 2. -/
theorem isGrounded_iff_clearance_lt_two (L : ℝ) (planet : PlanetConfig)
    (st : PState) :
    isGroundedOf L planet st ↔
      st.pos.y - getTerrainHeight L st.pos.x st.pos.z planet < 2 := by
  unfold isGroundedOf currentHeightOf terrainHeightAt HOVER_TARGET
  norm_num

/-! ## Claim C7: the global slope term -/

lemma slopeHeightOf_zero (L z : ℝ) : slopeHeightOf L z 0 = 0 := by
  unfold slopeHeightOf
  ring

/-- Claim C7: the global slope term of getTerrainHeight is the linear
interpolation (1 - (z + L/2)/L) * mountainHeight; it equals
mountainHeight at the track start z = -L/2, vanishes at the track end
z = L/2, and is added to the height result of every planet (the
remainder of the height is the height of the same planet with
mountainHeight zero). -/
theorem slope_term_linear_additive (L x z : ℝ) (p : PlanetConfig)
    (hL : L ≠ 0) :
    slopeHeightOf L z p.mountainHeight =
      (1 - (z + L / 2) / L) * p.mountainHeight ∧
    slopeHeightOf L (-(L / 2)) p.mountainHeight = p.mountainHeight ∧
    slopeHeightOf L (L / 2) p.mountainHeight = 0 ∧
    getTerrainHeight L x z p =
      slopeHeightOf L z p.mountainHeight +
        getTerrainHeight L x z { p with mountainHeight := 0 } := by
  refine ⟨rfl, ?_, ?_, ?_⟩
  · unfold slopeHeightOf
    rw [neg_add_cancel, zero_div]
    ring
  · unfold slopeHeightOf
    rw [show L / 2 + L / 2 = L by ring, div_self hL]
    ring
  · by_cases h : p.name = PlanetType.MARS
    · simp only [getTerrainHeight, h, if_true, slopeHeightOf_zero]
      ring
    · have e1 : profileHeightOf x { p with mountainHeight := 0 } =
          profileHeightOf x p := rfl
      have e2 : finalNoiseOf x z { p with mountainHeight := 0 } =
          finalNoiseOf x z p := rfl
      have e3 : microNoiseOf x z { p with mountainHeight := 0 } =
          microNoiseOf x z p := rfl
      simp only [getTerrainHeight, h, if_false, slopeHeightOf_zero, e1, e2, e3]
      ring

/-- Witness for C7 at the concrete world length 20000 and a concrete
planet configuration. -/
theorem slope_term_linear_additive_witness :
    slopeHeightOf 20000 3
        (PlanetConfig.mk PlanetType.MOON 1 700 1 TerrainProfile.ridge).mountainHeight =
      (1 - ((3:ℝ) + 20000 / 2) / 20000) *
        (PlanetConfig.mk PlanetType.MOON 1 700 1 TerrainProfile.ridge).mountainHeight ∧
    slopeHeightOf 20000 (-(20000 / 2))
        (PlanetConfig.mk PlanetType.MOON 1 700 1 TerrainProfile.ridge).mountainHeight =
      (PlanetConfig.mk PlanetType.MOON 1 700 1 TerrainProfile.ridge).mountainHeight ∧
    slopeHeightOf 20000 (20000 / 2)
        (PlanetConfig.mk PlanetType.MOON 1 700 1 TerrainProfile.ridge).mountainHeight = 0 ∧
    getTerrainHeight 20000 7 3 (PlanetConfig.mk PlanetType.MOON 1 700 1 TerrainProfile.ridge) =
      slopeHeightOf 20000 3
          (PlanetConfig.mk PlanetType.MOON 1 700 1 TerrainProfile.ridge).mountainHeight +
        getTerrainHeight 20000 7 3
          { PlanetConfig.mk PlanetType.MOON 1 700 1 TerrainProfile.ridge with
              mountainHeight := 0 } :=
  slope_term_linear_additive 20000 7 3
    (PlanetConfig.mk PlanetType.MOON 1 700 1 TerrainProfile.ridge) (by norm_num)

/-! ## Claim C8: the value noise blend -/

/-- The cubic Hermite smoothstep weight exactly as the spec words it:
3 t squared minus 2 t cubed. -/
noncomputable def smoothstepSpec (t : ℝ) : ℝ := 3 * t ^ (2:ℕ) - 2 * t ^ (3:ℕ)

/-- The value noise exactly as the spec words it: bilinear interpolation
of the four hash corners of the unit cell containing (x, z), weighted by
the smoothstep of the fractional offsets of x and z. -/
noncomputable def specValueNoise (x z : ℝ) : ℝ :=
  let u := smoothstepSpec (fract x)
  let v := smoothstepSpec (fract z)
  let a := hash (⌊x⌋ : ℝ) (⌊z⌋ : ℝ)
  let b := hash ((⌊x⌋ : ℝ) + 1) (⌊z⌋ : ℝ)
  let c := hash (⌊x⌋ : ℝ) ((⌊z⌋ : ℝ) + 1)
  let d := hash ((⌊x⌋ : ℝ) + 1) ((⌊z⌋ : ℝ) + 1)
  a * (1 - u) * (1 - v) + b * u * (1 - v) + c * (1 - u) * v + d * u * v

/-- Claim C8: for every (x, z) the value noise equals the bilinear blend
of the four corner hashes of the unit cell containing (x, z), weighted by
the cubic Hermite smoothstep of the fractional offsets, and the result
lies in the interval from 0 inclusive to 1 exclusive. -/
theorem valueNoise_bilinear_smoothstep_range (x z : ℝ) :
    noise x z = specValueNoise x z ∧ 0 ≤ noise x z ∧ noise x z < 1 := by
  refine ⟨?_, noise_nonneg x z, noise_lt_one x z⟩
  simp only [noise, specValueNoise, smoothstepSpec]
  ring

/-! ## Claim C9: the normal estimator never divides by zero -/

/-- Claim C9: for every (x, z, planet) the un-normalized vector built
inside getTerrainNormal has y component exactly 4, twice the fixed sample
offset 2, hence the normalizing length is strictly positive (no division
by zero) and the returned normal has a strictly positive y component. -/
theorem normal_y_four_length_pos (L x z : ℝ) (p : PlanetConfig) :
    (normVecOf L x z p).y = 2 * 2 ∧ 0 < lenOf L x z p ∧
      0 < (getTerrainNormal L x z p).y := by
  refine ⟨by rw [normVec_y]; norm_num, lenOf_pos L x z p, ?_⟩
  simp only [getTerrainNormal]
  rw [normVec_y]
  exact div_pos (by norm_num) (lenOf_pos L x z p)

/-! ## A family of ridge planets with zero roughness

The claims quantify over planet configurations; the concrete scenarios
below use ridge planets with terrainRoughness zero, for which the
roughness scaled noise amplitudes vanish and the height field reduces to
slope plus clamped profile plus a single micro noise term in [0, 1). -/

/-- A ridge profile planet with zero terrain roughness, gravity g and
mountain height M. -/
def Pm (g M : ℝ) : PlanetConfig :=
  PlanetConfig.mk PlanetType.SATURN g M 0 TerrainProfile.ridge

/-- The all keys released input vector. -/
def K0 : Keys := Keys.mk false false false false false

lemma Pm_profile_ne_pipe (g M : ℝ) :
    ¬((Pm g M).terrainProfile = TerrainProfile.pipe) :=
  fun h => TerrainProfile.noConfusion h

lemma Pm_name_ne_mars (g M : ℝ) : ¬((Pm g M).name = PlanetType.MARS) :=
  fun h => PlanetType.noConfusion h

lemma Pm_name_ne_moon (g M : ℝ) : ¬((Pm g M).name = PlanetType.MOON) :=
  fun h => PlanetType.noConfusion h

lemma profile_Pm (g M x : ℝ) :
    profileHeightOf x (Pm g M) = max (-(|x| / 10) ^ (1.5:ℝ) * 2) (-3000) := rfl

lemma profile_Pm_nonpos (g M x : ℝ) : profileHeightOf x (Pm g M) ≤ 0 := by
  rw [profile_Pm]
  have h := Real.rpow_nonneg (by positivity : (0:ℝ) ≤ |x| / 10) (1.5:ℝ)
  apply max_le (by nlinarith) (by norm_num)

lemma profile_Pm_ge (g M x : ℝ) : -3000 ≤ profileHeightOf x (Pm g M) := by
  rw [profile_Pm]
  exact le_max_right _ _

lemma profile_Pm_zero (g M : ℝ) : profileHeightOf 0 (Pm g M) = 0 := by
  rw [profile_Pm]
  rw [abs_zero, zero_div, Real.zero_rpow (by norm_num : (1.5:ℝ) ≠ 0)]
  rw [show -(0:ℝ) * 2 = 0 by ring]
  exact max_eq_left (by norm_num)

lemma profile_Pm_ge_small (g M x : ℝ) (hx : |x| ≤ 10) :
    -2 ≤ profileHeightOf x (Pm g M) := by
  rw [profile_Pm]
  have h1 : (|x| / 10 : ℝ) ^ (1.5:ℝ) ≤ 1 := by
    apply Real.rpow_le_one (by positivity) (by linarith [abs_nonneg x]) (by norm_num)
  calc (-2 : ℝ) ≤ -(|x| / 10) ^ (1.5:ℝ) * 2 := by nlinarith
    _ ≤ _ := le_max_left _ _

lemma finalNoise_Pm_center (g M x z : ℝ) (hx : |x| < 150) :
    finalNoiseOf x z (Pm g M) = 0 := by
  simp only [finalNoiseOf]
  rw [if_neg (Pm_profile_ne_pipe g M), if_pos hx, if_neg (not_le.mpr hx)]
  rw [show (Pm g M).terrainRoughness = 0 from rfl]
  ring

lemma finalNoise_Pm_bounds (g M x z : ℝ) :
    0 ≤ finalNoiseOf x z (Pm g M) ∧ finalNoiseOf x z (Pm g M) ≤ 100 := by
  by_cases hx : |x| < 150
  · rw [finalNoise_Pm_center g M x z hx]
    norm_num
  · have hge : (150:ℝ) ≤ |x| := le_of_not_lt hx
    simp only [finalNoiseOf]
    rw [if_neg (Pm_profile_ne_pipe g M), if_neg hx, if_pos (not_lt.mp hx)]
    rw [show (Pm g M).terrainRoughness = 0 from rfl]
    have hr0 : 0 ≤ min ((|x| - 150) / 1000) 1 :=
      le_min (div_nonneg (by linarith) (by norm_num)) (by norm_num)
    have hr1 : min ((|x| - 150) / 1000) 1 ≤ 1 := min_le_right _ _
    have hc0 : 0 ≤ (min ((|x| - 150) / 1000) 1) ^ (2:ℕ) := by positivity
    have hc1 : (min ((|x| - 150) / 1000) 1) ^ (2:ℕ) ≤ 1 := pow_le_one₀ hr0 hr1
    have hn0 := noise_nonneg (x * 0.01) (z * 0.01)
    have hn1 := noise_le_one (x * 0.01) (z * 0.01)
    constructor
    · nlinarith [mul_nonneg hn0 hc0]
    · nlinarith [mul_le_mul hn1 hc1 hc0 (by norm_num : (0:ℝ) ≤ 1),
        mul_nonneg hn0 hc0]

lemma micro_Pm (g M x z : ℝ) :
    microNoiseOf x z (Pm g M) = noise (x * 0.8) (z * 0.8) := by
  simp only [microNoiseOf]
  rw [if_neg (Pm_name_ne_moon g M)]

lemma height_Pm_center (g M L x z : ℝ) (hx : |x| < 150) :
    getTerrainHeight L x z (Pm g M) =
      slopeHeightOf L z M + profileHeightOf x (Pm g M) +
        noise (x * 0.8) (z * 0.8) - 200 := by
  simp only [getTerrainHeight]
  rw [if_neg (Pm_name_ne_mars g M)]
  rw [finalNoise_Pm_center g M x z hx, micro_Pm]
  rw [show (Pm g M).mountainHeight = M from rfl]
  unfold microAmplitude
  ring

lemma height_Pm_le (g M L x z : ℝ) :
    getTerrainHeight L x z (Pm g M) ≤ slopeHeightOf L z M - 99 := by
  simp only [getTerrainHeight]
  rw [if_neg (Pm_name_ne_mars g M)]
  rw [micro_Pm, show (Pm g M).mountainHeight = M from rfl]
  have hp := profile_Pm_nonpos g M x
  have hf := finalNoise_Pm_bounds g M x z
  have hm := noise_le_one (x * 0.8) (z * 0.8)
  unfold microAmplitude
  nlinarith [hf.1, hf.2]

lemma slopeHeightOf_shift (L z d M : ℝ) :
    slopeHeightOf L (z + d) M = slopeHeightOf L z M - d * M / L := by
  unfold slopeHeightOf
  ring

lemma normVec_x_Pm_abs_le (g M L z : ℝ) :
    |(normVecOf L 0 z (Pm g M)).x| ≤ 1 := by
  simp only [normVecOf]
  rw [height_Pm_center g M L (0 - 2) z (by norm_num),
    height_Pm_center g M L (0 + 2) z (by norm_num)]
  have hprof : profileHeightOf (0 - 2) (Pm g M) = profileHeightOf (0 + 2) (Pm g M) := by
    rw [profile_Pm, profile_Pm]
    norm_num
  rw [hprof]
  have h1 := noise_nonneg ((0 - 2) * 0.8) (z * 0.8)
  have h2 := noise_le_one ((0 - 2) * 0.8) (z * 0.8)
  have h3 := noise_nonneg ((0 + 2) * 0.8) (z * 0.8)
  have h4 := noise_le_one ((0 + 2) * 0.8) (z * 0.8)
  rw [abs_le]
  constructor
  · linarith
  · linarith

lemma normVec_z_Pm (g M L z : ℝ) :
    (normVecOf L 0 z (Pm g M)).z = 4 * M / L +
      (noise (0 * 0.8) ((z - 2) * 0.8) - noise (0 * 0.8) ((z + 2) * 0.8)) := by
  simp only [normVecOf]
  rw [height_Pm_center g M L 0 (z - 2) (by norm_num),
    height_Pm_center g M L 0 (z + 2) (by norm_num)]
  unfold slopeHeightOf
  ring

lemma normVec_z_Pm_bounds (g M L z : ℝ) :
    4 * M / L - 1 ≤ (normVecOf L 0 z (Pm g M)).z ∧
      (normVecOf L 0 z (Pm g M)).z ≤ 4 * M / L + 1 := by
  rw [normVec_z_Pm]
  have h1 := noise_nonneg (0 * 0.8) ((z - 2) * 0.8)
  have h2 := noise_le_one (0 * 0.8) ((z - 2) * 0.8)
  have h3 := noise_nonneg (0 * 0.8) ((z + 2) * 0.8)
  have h4 := noise_le_one (0 * 0.8) ((z + 2) * 0.8)
  constructor
  · linarith
  · linarith

/-! ## Claim C3: the terrain floors -/

/-- Counterexample to claim C3 as stated: for the ridge planet Pm 0 0
(terrainProfile ridge, mountain height 0, roughness 0) the full height at
x = 10000, z = 0 falls below the ridge floor constant -3000, because only
the profile term is floor clamped while the noise terms and the fixed
baseline of 200 are subtracted afterwards. -/
theorem ridge_height_below_floor_cex :
    (Pm 0 0).terrainProfile = TerrainProfile.ridge ∧
    getTerrainHeight 20000 10000 0 (Pm 0 0) < -3000 := by
  refine ⟨rfl, ?_⟩
  have hprof : profileHeightOf (10000:ℝ) (Pm 0 0) = -3000 := by
    rw [profile_Pm]
    have habs : |(10000:ℝ)| / 10 = 1000 := by
      rw [abs_of_pos (by norm_num : (0:ℝ) < 10000)]
      norm_num
    rw [habs]
    have hsplit : (1000:ℝ) ^ (1.5:ℝ) = 1000 ^ (1:ℝ) * 1000 ^ (0.5:ℝ) := by
      rw [← Real.rpow_add (by norm_num : (0:ℝ) < 1000)]
      norm_num
    have hsq : (30:ℝ) ≤ 1000 ^ (0.5:ℝ) := by
      rw [show (0.5:ℝ) = 1/2 by norm_num, ← Real.sqrt_eq_rpow]
      have h900 : (30:ℝ) = Real.sqrt 900 := by
        rw [show (900:ℝ) = 30 ^ 2 by norm_num, Real.sqrt_sq (by norm_num)]
      rw [h900]
      exact Real.sqrt_le_sqrt (by norm_num)
    have h1 : (1500:ℝ) ≤ (1000:ℝ) ^ (1.5:ℝ) := by
      rw [hsplit, Real.rpow_one]
      nlinarith
    apply max_eq_right
    nlinarith
  simp only [getTerrainHeight]
  rw [if_neg (Pm_name_ne_mars 0 0), micro_Pm, hprof]
  have hs : slopeHeightOf 20000 0 (Pm (0:ℝ) 0).mountainHeight = 0 := by
    rw [show (Pm (0:ℝ) 0).mountainHeight = 0 from rfl]
    exact slopeHeightOf_zero _ _
  rw [hs]
  have hf := finalNoise_Pm_bounds 0 0 10000 0
  have hm := noise_le_one ((10000:ℝ) * 0.8) (0 * 0.8)
  unfold microAmplitude
  nlinarith [hf.1, hf.2]

/-- Claim C3 (amended): in getTerrainHeight, the ridge profile term is
floor clamped to -3000 and the pipe profile term is floor clamped to
-2000, regardless of x; the full height (profile plus slope plus noise
terms minus the fixed baseline of 200) can still fall below these
floors. -/
theorem profile_floor_clamps (x : ℝ) (p : PlanetConfig) :
    (p.terrainProfile = TerrainProfile.ridge → -3000 ≤ profileHeightOf x p) ∧
    (p.terrainProfile = TerrainProfile.pipe → -2000 ≤ profileHeightOf x p) := by
  obtain ⟨n, g, M, r, prof⟩ := p
  constructor
  · intro h
    cases h
    exact le_max_right _ _
  · intro h
    cases h
    exact le_max_right _ _

/-- Witness for the amended C3 at x = 0 on a concrete ridge planet and a
concrete pipe planet. -/
theorem profile_floor_clamps_witness :
    -3000 ≤ profileHeightOf 0 (Pm 0 0) ∧
    -2000 ≤ profileHeightOf 0
        (PlanetConfig.mk PlanetType.SPACECRAFT 1 0 0 TerrainProfile.pipe) :=
  ⟨(profile_floor_clamps 0 (Pm 0 0)).1 rfl,
   (profile_floor_clamps 0
      (PlanetConfig.mk PlanetType.SPACECRAFT 1 0 0 TerrainProfile.pipe)).2 rfl⟩

/-! ## Claim C10: the committed position stays above the surface -/

/-- Claim C10: after every physics step in which the wall collision
branch does not fire, the committed position satisfies
y at least the terrain height at the committed (x, z) plus 0.5, because
the ground penetration clamp samples the terrain at exactly the candidate
(x, z) that is then committed. -/
theorem committed_position_above_surface (L : ℝ) (p : PlanetConfig) (k : Keys)
    (delta : ℝ) (st : PState) (hw : ¬ wallCondOf L p k delta st) :
    getTerrainHeight L (stepPhysics L p k delta st).pos.x
        (stepPhysics L p k delta st).pos.z p + 0.5 ≤
      (stepPhysics L p k delta st).pos.y := by
  simp only [stepPhysics]
  rw [if_neg hw]
  by_cases hp : penetCondOf L p k delta st
  · rw [if_pos hp]
    exact le_of_eq rfl
  · rw [if_neg hp]
    exact not_lt.mp hp

/-- The wall condition does not fire for a zero roughness ridge planet
with mountain height 0 from the origin state: the whole terrain lies
below -99 while the step starts at y = 0. -/
lemma nowall_origin :
    ¬ wallCondOf 20000 (Pm 1 0) K0 0.05
      (PState.mk (Vec3.mk 0 0 0) (Vec3.mk 0 0 0) 0 0) := by
  unfold wallCondOf
  rw [not_lt]
  have h1 : nextTerrainHeightOf 20000 (Pm 1 0) K0 0.05
      (PState.mk (Vec3.mk 0 0 0) (Vec3.mk 0 0 0) 0 0) ≤
      slopeHeightOf 20000
        (nextZOf 20000 (Pm 1 0) K0 0.05
          (PState.mk (Vec3.mk 0 0 0) (Vec3.mk 0 0 0) 0 0)) 0 - 99 :=
    height_Pm_le 1 0 20000 _ _
  rw [slopeHeightOf_zero] at h1
  have h2 : (PState.mk (Vec3.mk 0 0 0) (Vec3.mk 0 0 0) 0 0).pos.y = (0:ℝ) := rfl
  rw [h2]
  linarith

/-- Witness for C10: the concrete origin state on a concrete planet, with
the wall hypothesis discharged. -/
theorem committed_position_above_surface_witness :
    (¬ wallCondOf 20000 (Pm 1 0) K0 0.05
        (PState.mk (Vec3.mk 0 0 0) (Vec3.mk 0 0 0) 0 0)) ∧
    getTerrainHeight 20000
        (stepPhysics 20000 (Pm 1 0) K0 0.05
          (PState.mk (Vec3.mk 0 0 0) (Vec3.mk 0 0 0) 0 0)).pos.x
        (stepPhysics 20000 (Pm 1 0) K0 0.05
          (PState.mk (Vec3.mk 0 0 0) (Vec3.mk 0 0 0) 0 0)).pos.z (Pm 1 0) + 0.5 ≤
      (stepPhysics 20000 (Pm 1 0) K0 0.05
        (PState.mk (Vec3.mk 0 0 0) (Vec3.mk 0 0 0) 0 0)).pos.y :=
  ⟨nowall_origin,
   committed_position_above_surface 20000 (Pm 1 0) K0 0.05
     (PState.mk (Vec3.mk 0 0 0) (Vec3.mk 0 0 0) 0 0) nowall_origin⟩

/-! ## Claim C2: the speed bounds -/

lemma speed3_bounds (keys : Keys) (delta : ℝ) (st : PState) :
    -20 ≤ speed3Of keys delta st ∧ speed3Of keys delta st ≤ 190 := by
  unfold speed3Of maxSpeed
  constructor
  · exact le_min (le_max_right _ _) (by norm_num)
  · exact min_le_right _ _

lemma dtOf_nonneg {delta : ℝ} (hd : 0 ≤ delta) : 0 ≤ dtOf delta :=
  le_min hd (by norm_num)

lemma dtOf_le : dtOf delta ≤ 0.05 := min_le_right _ _

lemma groundNormalAt_z_le_one (L : ℝ) (p : PlanetConfig) (st : PState) :
    (groundNormalAt L p st).z ≤ 1 := by
  have h : |(getTerrainNormal L st.pos.x st.pos.z p).z| ≤ 1 :=
    normal_z_abs_le_one L st.pos.x st.pos.z p
  exact (abs_le.mp h).2

lemma speed4_bounds (L : ℝ) (p : PlanetConfig) (keys : Keys) (delta : ℝ)
    (st : PState) (hg : 0 ≤ p.gravity) (hd : 0 ≤ delta) :
    -20 ≤ speed4Of L p keys delta st ∧
      speed4Of L p keys delta st ≤ 190 + 5 * p.gravity := by
  have hs3 := speed3_bounds keys delta st
  have hdt0 := dtOf_nonneg hd
  have hdt1 : dtOf delta ≤ 0.05 := min_le_right _ _
  unfold speed4Of
  by_cases h : (groundNormalAt L p st).z > 0
  · rw [if_pos h]
    have hz1 := groundNormalAt_z_le_one L p st
    have hboost0 : 0 ≤ (groundNormalAt L p st).z * p.gravity * 100 * dtOf delta := by
      have := mul_nonneg (mul_nonneg (mul_nonneg (le_of_lt h) hg)
        (by norm_num : (0:ℝ) ≤ 100)) hdt0
      exact this
    have hboost1 : (groundNormalAt L p st).z * p.gravity * 100 * dtOf delta ≤
        5 * p.gravity := by
      have e1 : (groundNormalAt L p st).z * p.gravity * 100 * dtOf delta ≤
          1 * p.gravity * 100 * dtOf delta := by
        apply mul_le_mul_of_nonneg_right ?_ hdt0
        apply mul_le_mul_of_nonneg_right ?_ (by norm_num)
        exact mul_le_mul_of_nonneg_right hz1 hg
      have e2 : 1 * p.gravity * 100 * dtOf delta ≤ 1 * p.gravity * 100 * 0.05 := by
        apply mul_le_mul_of_nonneg_left hdt1
        positivity
      nlinarith
    constructor
    · linarith [hs3.1]
    · linarith [hs3.2]
  · rw [if_neg h]
    refine ⟨hs3.1, ?_⟩
    have h5 : (0:ℝ) ≤ 5 * p.gravity := by positivity
    linarith [hs3.2]

lemma stepPhysics_speed_bounds (L : ℝ) (p : PlanetConfig) (keys : Keys)
    (delta : ℝ) (st : PState) (hg : 0 ≤ p.gravity) (hd : 0 ≤ delta) :
    -20 ≤ (stepPhysics L p keys delta st).speed ∧
      (stepPhysics L p keys delta st).speed ≤ 190 + 5 * p.gravity := by
  have h4 := speed4_bounds L p keys delta st hg hd
  have h5 : (0:ℝ) ≤ 5 * p.gravity := by positivity
  simp only [stepPhysics]
  by_cases h : wallCondOf L p keys delta st
  · rw [if_pos h]
    constructor
    · linarith [h4.1]
    · linarith [h4.2]
  · rw [if_neg h]
    exact h4

lemma step_speed_inv (L : ℝ) (p : PlanetConfig) (keys : Keys) (delta : ℝ)
    (st : PState) (hg : 0 ≤ p.gravity) (hd : 0 ≤ delta)
    (hlo : -20 ≤ st.speed) (hhi : st.speed ≤ 190 + 5 * p.gravity) :
    -20 ≤ (step L p keys delta st).speed ∧
      (step L p keys delta st).speed ≤ 190 + 5 * p.gravity := by
  unfold step
  by_cases h : st.pos.z > L / 2 - 300
  · rw [if_pos h]
    exact ⟨hlo, hhi⟩
  · rw [if_neg h]
    exact stepPhysics_speed_bounds L p keys delta st hg hd

lemma runSteps_speed_inv (L : ℝ) (p : PlanetConfig) (hg : 0 ≤ p.gravity) :
    ∀ (inputs : List (Keys × ℝ)), (∀ i ∈ inputs, 0 ≤ i.2) → ∀ st : PState,
      -20 ≤ st.speed → st.speed ≤ 190 + 5 * p.gravity →
      -20 ≤ (runSteps L p inputs st).speed ∧
        (runSteps L p inputs st).speed ≤ 190 + 5 * p.gravity := by
  intro inputs
  induction inputs with
  | nil =>
      intro _ st h1 h2
      exact ⟨h1, h2⟩
  | cons i is ih =>
      intro hd st h1 h2
      have hstep := step_speed_inv L p i.1 i.2 st hg
        (hd i (List.mem_cons_self i is)) h1 h2
      have htail := ih (fun j hj => hd j (List.mem_cons_of_mem i hj))
        (step L p i.1 i.2 st) hstep.1 hstep.2
      simpa [runSteps, List.foldl_cons] using htail

/-- Claim C2 (amended): the clamp applied inside each step keeps the
forward speed in the fixed range from -20 to maxSpeed = 190, but the
downhill slope boost of the same step is applied after the clamp, so the
end of step speed can exceed 190; with nonnegative planet gravity and
nonnegative frame deltas, the speed at the end of every step starting
from the spawn state stays within -20 and 190 + 5 * gravity (the boost is
at most gravity times 100 times the clamped dt of 0.05). -/
theorem speed_bounds_after_steps (L : ℝ) (p : PlanetConfig)
    (inputs : List (Keys × ℝ)) (k : Keys) (delta : ℝ) (st : PState)
    (hg : 0 ≤ p.gravity) (hd : ∀ i ∈ inputs, 0 ≤ i.2) :
    (-20 ≤ (runSteps L p inputs (spawnState L p)).speed ∧
      (runSteps L p inputs (spawnState L p)).speed ≤ 190 + 5 * p.gravity) ∧
    (-20 ≤ speed3Of k delta st ∧ speed3Of k delta st ≤ 190) := by
  refine ⟨?_, speed3_bounds k delta st⟩
  have h0 : (spawnState L p).speed = 0 := rfl
  have h5 : (0:ℝ) ≤ 5 * p.gravity := by positivity
  exact runSteps_speed_inv L p hg inputs hd (spawnState L p)
    (by rw [h0]; norm_num) (by rw [h0]; linarith)

/-- Witness for the amended C2: the empty input run on a concrete planet,
with every hypothesis discharged. -/
theorem speed_bounds_after_steps_witness :
    ((-20 ≤ (runSteps 20000 (Pm 1 0) [] (spawnState 20000 (Pm 1 0))).speed ∧
      (runSteps 20000 (Pm 1 0) [] (spawnState 20000 (Pm 1 0))).speed ≤
        190 + 5 * (Pm 1 0).gravity) ∧
    (-20 ≤ speed3Of K0 0.05 (spawnState 20000 (Pm 1 0)) ∧
      speed3Of K0 0.05 (spawnState 20000 (Pm 1 0)) ≤ 190)) :=
  speed_bounds_after_steps 20000 (Pm 1 0) [] K0 0.05 (spawnState 20000 (Pm 1 0))
    (by norm_num [Pm]) (by intro i hi; cases hi)

/-! ### Counterexample scenario for C2: a steep downhill ridge planet

On the planet Pm 100 1000000 (gravity 100, mountain height 1000000,
roughness 0, ridge profile) the first step from the spawn state, with no
keys held and a frame delta of 0.05, ends with forward speed above 190:
the downhill slope boost of line 192 runs after the clamp of line 182. -/

lemma c2_dt : dtOf 0.05 = 0.05 := min_self _

lemma c2_s3 : speed3Of K0 0.05 (spawnState 20000 (Pm 100 1000000)) = 0 := by
  simp only [speed3Of]
  rw [if_neg (show ¬(K0.w = true) by decide),
    if_neg (show ¬(K0.s = true) by decide)]
  rw [show (spawnState 20000 (Pm 100 1000000)).speed = 0 from rfl]
  rw [show ((0:ℝ) + 0 - 0) * 0.99 = 0 by ring]
  rw [max_eq_left (by norm_num : (-20:ℝ) ≤ 0)]
  exact min_eq_left (by norm_num [maxSpeed])

lemma c2_gn : groundNormalAt 20000 (Pm 100 1000000)
    (spawnState 20000 (Pm 100 1000000)) =
    getTerrainNormal 20000 0 (startZOf 20000) (Pm 100 1000000) := rfl

lemma c2_nvz_bounds :
    199 ≤ (normVecOf 20000 0 (startZOf 20000) (Pm 100 1000000)).z ∧
    (normVecOf 20000 0 (startZOf 20000) (Pm 100 1000000)).z ≤ 201 := by
  have h := normVec_z_Pm_bounds 100 1000000 20000 (startZOf 20000)
  norm_num at h
  exact h

lemma c2_nz_pos :
    0 < (getTerrainNormal 20000 0 (startZOf 20000) (Pm 100 1000000)).z :=
  normal_z_pos _ _ _ _ (by linarith [c2_nvz_bounds.1])

lemma c2_nz_half :
    1 / 2 ≤ (getTerrainNormal 20000 0 (startZOf 20000) (Pm 100 1000000)).z :=
  normal_z_ge_half _ _ _ _
    (normVec_x_Pm_abs_le 100 1000000 20000 (startZOf 20000))
    (by linarith [c2_nvz_bounds.1])

lemma c2_s4_eq : speed4Of 20000 (Pm 100 1000000) K0 0.05
    (spawnState 20000 (Pm 100 1000000)) =
    (getTerrainNormal 20000 0 (startZOf 20000) (Pm 100 1000000)).z * 500 := by
  unfold speed4Of
  rw [c2_gn, if_pos c2_nz_pos, c2_s3, c2_dt]
  rw [show (Pm (100:ℝ) 1000000).gravity = 100 from rfl]
  ring

lemma c2_s4_ge : 250 ≤ speed4Of 20000 (Pm 100 1000000) K0 0.05
    (spawnState 20000 (Pm 100 1000000)) := by
  rw [c2_s4_eq]
  linarith [c2_nz_half]

lemma c2_nowall : ¬ wallCondOf 20000 (Pm 100 1000000) K0 0.05
    (spawnState 20000 (Pm 100 1000000)) := by
  unfold wallCondOf
  rw [not_lt]
  have hnT : nextTerrainHeightOf 20000 (Pm 100 1000000) K0 0.05
      (spawnState 20000 (Pm 100 1000000)) ≤
      slopeHeightOf 20000 (nextZOf 20000 (Pm 100 1000000) K0 0.05
        (spawnState 20000 (Pm 100 1000000))) 1000000 - 99 :=
    height_Pm_le 100 1000000 20000 _ _
  have hnZ : nextZOf 20000 (Pm 100 1000000) K0 0.05
      (spawnState 20000 (Pm 100 1000000)) =
      startZOf 20000 + (speed4Of 20000 (Pm 100 1000000) K0 0.05
        (spawnState 20000 (Pm 100 1000000)) + 10) * 0.05 := by
    unfold nextZOf
    rw [c2_dt]
    rw [show (spawnState 20000 (Pm 100 1000000)).pos.z = startZOf 20000 from rfl]
  rw [hnZ, slopeHeightOf_shift] at hnT
  have hy : (spawnState 20000 (Pm 100 1000000)).pos.y =
      getTerrainHeight 20000 0 (startZOf 20000) (Pm 100 1000000) + 5 := rfl
  have hh : getTerrainHeight 20000 0 (startZOf 20000) (Pm 100 1000000) =
      slopeHeightOf 20000 (startZOf 20000) 1000000 +
        profileHeightOf 0 (Pm 100 1000000) +
        noise (0 * 0.8) (startZOf 20000 * 0.8) - 200 :=
    height_Pm_center 100 1000000 20000 0 (startZOf 20000) (by norm_num)
  have hp0 : profileHeightOf 0 (Pm (100:ℝ) 1000000) = 0 := profile_Pm_zero _ _
  have hn0 : 0 ≤ noise (0 * 0.8) (startZOf 20000 * 0.8) := noise_nonneg _ _
  rw [hy, hh, hp0]
  linarith [hnT, c2_s4_ge, hn0]

/-- Counterexample to claim C2 as stated: on the planet Pm 100 1000000
the very first simulation step from the spawn state, with all keys
released and a frame delta of 0.05, ends with forward speed strictly
above maxSpeed = 190, because the downhill slope boost is added after the
clamp to the range from -20 to 190. -/
theorem speed_clamp_violated_cex :
    190 < (step 20000 (Pm 100 1000000) K0 0.05
      (spawnState 20000 (Pm 100 1000000))).speed := by
  have hguard : ¬((spawnState 20000 (Pm 100 1000000)).pos.z > 20000 / 2 - 300) := by
    rw [show (spawnState 20000 (Pm 100 1000000)).pos.z = startZOf 20000 from rfl]
    unfold startZOf
    norm_num
  unfold step
  rw [if_neg hguard]
  simp only [stepPhysics]
  rw [if_neg c2_nowall]
  linarith [c2_s4_ge]

/-! ## Claim C4: the wall collision response

Scenario: on the planet Pm 1 (-1000000) (negative mountain height, so the
track climbs steeply in the forward direction) the first step from the
spawn state hits the wall condition, and the committed state shows which
coordinate the wall branch rejects. -/

lemma speed3_zero_noThrottle (k : Keys) (delta : ℝ) (st : PState)
    (hw : k.w = false) (hk : k.s = false) (hsp : st.speed = 0) :
    speed3Of k delta st = 0 := by
  simp only [speed3Of]
  rw [if_neg (by simp [hw]), if_neg (by simp [hk]), hsp]
  rw [show ((0:ℝ) + 0 - 0) * 0.99 = 0 by ring]
  rw [max_eq_left (by norm_num : (-20:ℝ) ≤ 0)]
  exact min_eq_left (by norm_num [maxSpeed])

lemma c4_nvz_bounds :
    -201 ≤ (normVecOf 20000 0 (startZOf 20000) (Pm 1 (-1000000))).z ∧
    (normVecOf 20000 0 (startZOf 20000) (Pm 1 (-1000000))).z ≤ -199 := by
  have h := normVec_z_Pm_bounds 1 (-1000000) 20000 (startZOf 20000)
  norm_num at h
  exact h

lemma c4_nz_neg :
    (getTerrainNormal 20000 0 (startZOf 20000) (Pm 1 (-1000000))).z < 0 :=
  normal_z_neg _ _ _ _ (by linarith [c4_nvz_bounds.2])

lemma c4_s4 : speed4Of 20000 (Pm 1 (-1000000)) K0 0.05
    (spawnState 20000 (Pm 1 (-1000000))) = 0 := by
  unfold speed4Of
  rw [show groundNormalAt 20000 (Pm 1 (-1000000))
      (spawnState 20000 (Pm 1 (-1000000))) =
      getTerrainNormal 20000 0 (startZOf 20000) (Pm 1 (-1000000)) from rfl]
  rw [if_neg (not_lt.mpr (le_of_lt c4_nz_neg))]
  exact speed3_zero_noThrottle K0 0.05 _ rfl rfl rfl

lemma c4_nZ : nextZOf 20000 (Pm 1 (-1000000)) K0 0.05
    (spawnState 20000 (Pm 1 (-1000000))) = startZOf 20000 + 0.5 := by
  unfold nextZOf
  rw [c2_dt, c4_s4]
  rw [show (spawnState 20000 (Pm 1 (-1000000))).pos.z = startZOf 20000 from rfl]
  norm_num

lemma c4_inputX1 : inputX1Of K0 0.05 (spawnState 20000 (Pm 1 (-1000000))) = 0 := by
  simp only [inputX1Of, lerp]
  rw [if_neg (show ¬(K0.a = true) by decide),
    if_neg (show ¬(K0.d = true) by decide)]
  rw [show (spawnState 20000 (Pm 1 (-1000000))).inputX = 0 from rfl]
  ring

lemma c4_velX3_eq : velX3Of 20000 (Pm 1 (-1000000)) K0 0.05
    (spawnState 20000 (Pm 1 (-1000000))) =
    (getTerrainNormal 20000 0 (startZOf 20000) (Pm 1 (-1000000))).x * 10 := by
  unfold velX3Of
  rw [c4_inputX1, c2_dt]
  rw [show (spawnState 20000 (Pm 1 (-1000000))).vel.x = 0 from rfl]
  rw [show groundNormalAt 20000 (Pm 1 (-1000000))
      (spawnState 20000 (Pm 1 (-1000000))) =
      getTerrainNormal 20000 0 (startZOf 20000) (Pm 1 (-1000000)) from rfl]
  rw [show (Pm (1:ℝ) (-1000000)).gravity = 1 from rfl]
  ring

lemma c4_nX_eq : nextXOf 20000 (Pm 1 (-1000000)) K0 0.05
    (spawnState 20000 (Pm 1 (-1000000))) =
    (getTerrainNormal 20000 0 (startZOf 20000) (Pm 1 (-1000000))).x * 0.5 := by
  unfold nextXOf
  rw [c4_velX3_eq, c2_dt]
  rw [show (spawnState 20000 (Pm 1 (-1000000))).pos.x = 0 from rfl]
  ring

lemma c4_nX_abs : |nextXOf 20000 (Pm 1 (-1000000)) K0 0.05
    (spawnState 20000 (Pm 1 (-1000000)))| ≤ 1 := by
  rw [c4_nX_eq, abs_mul]
  have h := normal_x_abs_le_quarter 20000 0 (startZOf 20000) (Pm 1 (-1000000))
    (normVec_x_Pm_abs_le 1 (-1000000) 20000 (startZOf 20000))
  rw [show |(0.5:ℝ)| = 0.5 by rw [abs_of_pos] <;> norm_num]
  nlinarith [abs_nonneg (getTerrainNormal 20000 0 (startZOf 20000) (Pm 1 (-1000000))).x]

lemma c4_wall : wallCondOf 20000 (Pm 1 (-1000000)) K0 0.05
    (spawnState 20000 (Pm 1 (-1000000))) := by
  unfold wallCondOf
  have hnT : nextTerrainHeightOf 20000 (Pm 1 (-1000000)) K0 0.05
      (spawnState 20000 (Pm 1 (-1000000))) =
      slopeHeightOf 20000 (nextZOf 20000 (Pm 1 (-1000000)) K0 0.05
          (spawnState 20000 (Pm 1 (-1000000)))) (-1000000) +
        profileHeightOf (nextXOf 20000 (Pm 1 (-1000000)) K0 0.05
          (spawnState 20000 (Pm 1 (-1000000)))) (Pm 1 (-1000000)) +
        noise (nextXOf 20000 (Pm 1 (-1000000)) K0 0.05
            (spawnState 20000 (Pm 1 (-1000000))) * 0.8)
          (nextZOf 20000 (Pm 1 (-1000000)) K0 0.05
            (spawnState 20000 (Pm 1 (-1000000))) * 0.8) - 200 :=
    height_Pm_center 1 (-1000000) 20000 _ _
      (lt_of_le_of_lt c4_nX_abs (by norm_num))
  rw [c4_nZ, slopeHeightOf_shift] at hnT
  have hprof : -2 ≤ profileHeightOf (nextXOf 20000 (Pm 1 (-1000000)) K0 0.05
      (spawnState 20000 (Pm 1 (-1000000)))) (Pm 1 (-1000000)) :=
    profile_Pm_ge_small 1 (-1000000) _ (le_trans c4_nX_abs (by norm_num))
  have hn1 : 0 ≤ noise (nextXOf 20000 (Pm 1 (-1000000)) K0 0.05
      (spawnState 20000 (Pm 1 (-1000000))) * 0.8)
      ((startZOf 20000 + 0.5) * 0.8) := noise_nonneg _ _
  have hy : (spawnState 20000 (Pm 1 (-1000000))).pos.y =
      getTerrainHeight 20000 0 (startZOf 20000) (Pm 1 (-1000000)) + 5 := rfl
  have hh : getTerrainHeight 20000 0 (startZOf 20000) (Pm 1 (-1000000)) =
      slopeHeightOf 20000 (startZOf 20000) (-1000000) +
        profileHeightOf 0 (Pm 1 (-1000000)) +
        noise (0 * 0.8) (startZOf 20000 * 0.8) - 200 :=
    height_Pm_center 1 (-1000000) 20000 0 (startZOf 20000) (by norm_num)
  have hp0 : profileHeightOf 0 (Pm (1:ℝ) (-1000000)) = 0 := profile_Pm_zero _ _
  have hn0 : noise (0 * 0.8) (startZOf 20000 * 0.8) ≤ 1 := noise_le_one _ _
  rw [hy, hh, hp0, hnT]
  linarith

/-- Counterexample to claim C4 as stated: on the planet Pm 1 (-1000000)
the first step from the spawn state fires the wall condition, yet the
committed longitudinal coordinate z differs from the z at the step start
(the code rejects the lateral x displacement instead). -/
theorem wall_keeps_longitudinal_cex :
    wallCondOf 20000 (Pm 1 (-1000000)) K0 0.05
      (spawnState 20000 (Pm 1 (-1000000))) ∧
    (step 20000 (Pm 1 (-1000000)) K0 0.05
        (spawnState 20000 (Pm 1 (-1000000)))).pos.z ≠
      (spawnState 20000 (Pm 1 (-1000000))).pos.z := by
  refine ⟨c4_wall, ?_⟩
  have hguard : ¬((spawnState 20000 (Pm 1 (-1000000))).pos.z > 20000 / 2 - 300) := by
    rw [show (spawnState 20000 (Pm 1 (-1000000))).pos.z = startZOf 20000 from rfl]
    unfold startZOf
    norm_num
  unfold step
  rw [if_neg hguard]
  simp only [stepPhysics]
  rw [c4_nZ]
  rw [show (spawnState 20000 (Pm 1 (-1000000))).pos.z = startZOf 20000 from rfl]
  intro hcon
  have h05 : (0.5:ℝ) = 0 := by linarith [hcon]
  norm_num at h05

/-- Claim C4 (amended): when the wall condition fires, the step damps the
forward speed by the fixed factor 0.3, reverses and halves the lateral
velocity, and rejects the lateral displacement (the committed x equals
the x at the step start); the longitudinal coordinate is not rejected: it
still advances by (speed + 10) * dt. -/
theorem wall_collision_response (L : ℝ) (p : PlanetConfig) (k : Keys)
    (delta : ℝ) (st : PState) (hw : wallCondOf L p k delta st) :
    (stepPhysics L p k delta st).speed = speed4Of L p k delta st * 0.3 ∧
    (stepPhysics L p k delta st).vel.x = velX3Of L p k delta st * (-0.5) ∧
    (stepPhysics L p k delta st).pos.x = st.pos.x ∧
    (stepPhysics L p k delta st).pos.z =
      st.pos.z + (speed4Of L p k delta st + 10) * dtOf delta := by
  refine ⟨?_, ?_, ?_, ?_⟩
  · simp only [stepPhysics]
    rw [if_pos hw]
  · simp only [stepPhysics]
    rw [if_pos hw]
  · simp only [stepPhysics]
    rw [if_pos hw]
  · simp only [stepPhysics]
    rfl

/-- Witness for the amended C4: the wall firing scenario above, with the
wall hypothesis discharged. -/
theorem wall_collision_response_witness :
    (stepPhysics 20000 (Pm 1 (-1000000)) K0 0.05
        (spawnState 20000 (Pm 1 (-1000000)))).speed =
      speed4Of 20000 (Pm 1 (-1000000)) K0 0.05
        (spawnState 20000 (Pm 1 (-1000000))) * 0.3 ∧
    (stepPhysics 20000 (Pm 1 (-1000000)) K0 0.05
        (spawnState 20000 (Pm 1 (-1000000)))).vel.x =
      velX3Of 20000 (Pm 1 (-1000000)) K0 0.05
        (spawnState 20000 (Pm 1 (-1000000))) * (-0.5) ∧
    (stepPhysics 20000 (Pm 1 (-1000000)) K0 0.05
        (spawnState 20000 (Pm 1 (-1000000)))).pos.x =
      (spawnState 20000 (Pm 1 (-1000000))).pos.x ∧
    (stepPhysics 20000 (Pm 1 (-1000000)) K0 0.05
        (spawnState 20000 (Pm 1 (-1000000)))).pos.z =
      (spawnState 20000 (Pm 1 (-1000000))).pos.z +
        (speed4Of 20000 (Pm 1 (-1000000)) K0 0.05
          (spawnState 20000 (Pm 1 (-1000000))) + 10) * dtOf 0.05 :=
  wall_collision_response 20000 (Pm 1 (-1000000)) K0 0.05
    (spawnState 20000 (Pm 1 (-1000000))) c4_wall

/-! ## Claim C5: the jump impulse

Scenario: on the planet Pm 1 0 the state st5 hovers at clearance exactly
1.2 above the terrain at (0, 0) with zero velocity; the jump key is held.
The jump assignment of line 170 sets the vertical velocity to 50, but the
force integration of line 174 runs afterwards in the same step, so the
end of step vertical velocity is 50 + forceY * dt / (MASS / 10). -/

/-- Keyboard state with only the jump key held. -/
def K5 : Keys := Keys.mk false false false false true

/-- A state at clearance exactly 1.2 above the terrain at (0, 0), at rest. -/
noncomputable def st5 : PState :=
  PState.mk (Vec3.mk 0 (getTerrainHeight 20000 0 0 (Pm 1 0) + 1.2) 0)
    (Vec3.mk 0 0 0) 0 0

lemma c5_ch : currentHeightOf 20000 (Pm 1 0) st5 = 1.2 := by
  show getTerrainHeight 20000 0 0 (Pm 1 0) + 1.2 -
    getTerrainHeight 20000 0 0 (Pm 1 0) = 1.2
  ring

lemma c5_grounded : isGroundedOf 20000 (Pm 1 0) st5 := by
  unfold isGroundedOf
  rw [c5_ch]
  norm_num [HOVER_TARGET]

lemma c5_band : currentHeightOf 20000 (Pm 1 0) st5 < HOVER_TARGET + 0.5 := by
  rw [c5_ch]
  norm_num [HOVER_TARGET]

lemma c5_force : forceYOf 20000 (Pm 1 0) K5 st5 = -600 := by
  simp only [forceYOf]
  rw [c5_ch]
  rw [if_pos (show (1.2:ℝ) < HOVER_TARGET + 3 by norm_num [HOVER_TARGET])]
  rw [if_neg (show ¬(K5.space = false ∧ isGroundedOf 20000 (Pm 1 0) st5) from
    fun h => by simpa [K5] using h.1)]
  rw [show st5.vel.y = 0 from rfl]
  rw [show (Pm (1:ℝ) 0).gravity = 1 from rfl]
  rw [show (HOVER_TARGET - 1.2) * HOVER_STIFFNESS + -(0:ℝ) * HOVER_DAMPING = -360 by
    norm_num [HOVER_TARGET, HOVER_STIFFNESS, HOVER_DAMPING]]
  rw [max_eq_left (by norm_num : (-360:ℝ) ≤ 0)]
  norm_num

lemma c5_velY2 : velY2Of 20000 (Pm 1 0) K5 0.05 st5 = 47.5 := by
  simp only [velY2Of]
  rw [if_pos ⟨rfl, c5_grounded, c5_band⟩]
  rw [c5_force, c2_dt]
  norm_num [MASS]

lemma c5_nY0 : nextY0Of 20000 (Pm 1 0) K5 0.05 st5 =
    getTerrainHeight 20000 0 0 (Pm 1 0) + 3.575 := by
  unfold nextY0Of
  rw [c5_velY2, c2_dt]
  rw [show st5.pos.y = getTerrainHeight 20000 0 0 (Pm 1 0) + 1.2 from rfl]
  ring

lemma c5_inputX1 : inputX1Of K5 0.05 st5 = 0 := by
  simp only [inputX1Of, lerp]
  rw [if_neg (show ¬(K5.a = true) by decide),
    if_neg (show ¬(K5.d = true) by decide)]
  rw [show st5.inputX = 0 from rfl]
  ring

lemma c5_velX3_eq : velX3Of 20000 (Pm 1 0) K5 0.05 st5 =
    (getTerrainNormal 20000 0 0 (Pm 1 0)).x * 10 := by
  unfold velX3Of
  rw [c5_inputX1, c2_dt]
  rw [show st5.vel.x = 0 from rfl]
  rw [show groundNormalAt 20000 (Pm 1 0) st5 =
    getTerrainNormal 20000 0 0 (Pm 1 0) from rfl]
  rw [show (Pm (1:ℝ) 0).gravity = 1 from rfl]
  ring

lemma c5_nX_abs : |nextXOf 20000 (Pm 1 0) K5 0.05 st5| ≤ 1 := by
  have heq : nextXOf 20000 (Pm 1 0) K5 0.05 st5 =
      (getTerrainNormal 20000 0 0 (Pm 1 0)).x * 0.5 := by
    unfold nextXOf
    rw [c5_velX3_eq, c2_dt, show st5.pos.x = 0 from rfl]
    ring
  rw [heq, abs_mul]
  have h := normal_x_abs_le_quarter 20000 0 0 (Pm 1 0)
    (normVec_x_Pm_abs_le 1 0 20000 0)
  rw [show |(0.5:ℝ)| = 0.5 by rw [abs_of_pos] ; norm_num]
  nlinarith [abs_nonneg (getTerrainNormal 20000 0 0 (Pm 1 0)).x]

lemma c5_nopen : ¬ penetCondOf 20000 (Pm 1 0) K5 0.05 st5 := by
  unfold penetCondOf
  rw [not_lt]
  have hup : nextTerrainHeightOf 20000 (Pm 1 0) K5 0.05 st5 ≤ -199 := by
    have hc : nextTerrainHeightOf 20000 (Pm 1 0) K5 0.05 st5 =
        slopeHeightOf 20000 (nextZOf 20000 (Pm 1 0) K5 0.05 st5) 0 +
          profileHeightOf (nextXOf 20000 (Pm 1 0) K5 0.05 st5) (Pm 1 0) +
          noise (nextXOf 20000 (Pm 1 0) K5 0.05 st5 * 0.8)
            (nextZOf 20000 (Pm 1 0) K5 0.05 st5 * 0.8) - 200 :=
      height_Pm_center 1 0 20000 _ _ (lt_of_le_of_lt c5_nX_abs (by norm_num))
    rw [hc, slopeHeightOf_zero]
    have hp := profile_Pm_nonpos 1 0 (nextXOf 20000 (Pm 1 0) K5 0.05 st5)
    have hn := noise_le_one (nextXOf 20000 (Pm 1 0) K5 0.05 st5 * 0.8)
      (nextZOf 20000 (Pm 1 0) K5 0.05 st5 * 0.8)
    linarith
  have hlow : -200 ≤ getTerrainHeight 20000 0 0 (Pm 1 0) := by
    have hc := height_Pm_center 1 0 20000 0 0 (by norm_num)
    rw [hc, slopeHeightOf_zero, profile_Pm_zero]
    have hn := noise_nonneg ((0:ℝ) * 0.8) ((0:ℝ) * 0.8)
    linarith
  rw [c5_nY0]
  linarith

/-- Counterexample to claim C5 as stated: in the scenario st5 the jump
condition holds (jump key active, grounded, clearance 1.2 inside the
launch band), yet the vertical velocity at the end of the step is 47.5,
not exactly 50: the hover and gravity force computed earlier in the step
is integrated after the jump assignment. -/
theorem jump_velocity_not_fifty_cex :
    K5.space = true ∧ isGroundedOf 20000 (Pm 1 0) st5 ∧
    currentHeightOf 20000 (Pm 1 0) st5 < HOVER_TARGET + 0.5 ∧
    (step 20000 (Pm 1 0) K5 0.05 st5).vel.y = 47.5 ∧ (47.5:ℝ) ≠ 50 := by
  refine ⟨rfl, c5_grounded, c5_band, ?_, by norm_num⟩
  have hguard : ¬(st5.pos.z > 20000 / 2 - 300) := by
    rw [show st5.pos.z = 0 from rfl]
    norm_num
  unfold step
  rw [if_neg hguard]
  simp only [stepPhysics]
  rw [if_neg c5_nopen]
  exact c5_velY2

/-- Claim C5 (amended): when the jump key is active on a step in which
the player is grounded and the clearance is inside the launch band, the
jump assignment sets the vertical velocity to 50 in the middle of the
step, and the force term computed earlier in the same step is then
integrated on top, so (when the candidate position does not trigger the
ground penetration clamp) the end of step vertical velocity equals
50 + forceY * dt / (MASS / 10); the source has no latch, so the
assignment is re evaluated on every step on which the conditions hold. -/
theorem jump_sets_velocity_with_force (L : ℝ) (p : PlanetConfig) (k : Keys)
    (delta : ℝ) (st : PState) (hs : k.space = true)
    (hg : isGroundedOf L p st)
    (hb : currentHeightOf L p st < HOVER_TARGET + 0.5)
    (hnp : ¬ penetCondOf L p k delta st) :
    (stepPhysics L p k delta st).vel.y =
      50 + forceYOf L p k st * dtOf delta / (MASS / 10) := by
  simp only [stepPhysics]
  rw [if_neg hnp]
  simp only [velY2Of]
  rw [if_pos ⟨hs, hg, hb⟩]

/-- Witness for the amended C5: the scenario st5, with every hypothesis
discharged. -/
theorem jump_sets_velocity_with_force_witness :
    (stepPhysics 20000 (Pm 1 0) K5 0.05 st5).vel.y =
      50 + forceYOf 20000 (Pm 1 0) K5 st5 * dtOf 0.05 / (MASS / 10) :=
  jump_sets_velocity_with_force 20000 (Pm 1 0) K5 0.05 st5 rfl c5_grounded
    c5_band c5_nopen

end SpaceABoard
